import Mathlib

/-!
Verification development for the `convertjsonapi` repository
(`src/main.py`, `src/advanced_converter.py`).

The Python code is shallowly embedded:
* Python strings are `String` / `List Char`; `re` patterns are embedded as
  deterministic scanners that reproduce the backtracking search of the
  Python regex engine (leftmost match, greedy quantifiers with descending
  backtracking).  Character classes such as `\s`, `\d`, `\w` are modelled
  at their ASCII meaning, and `re.IGNORECASE` is modelled by ASCII case
  folding; the inputs the program processes are ASCII PDF text.
* Python's dynamically typed values (the results of field rules and the
  fields of the assembled record) are the inductive `PyVal`; floats that
  the program manipulates are exact decimals, modelled in `ℚ`.
* raised exceptions are `Except PyErr`; `safe_extract`'s `try/except` is a
  `match` on the `Except`.
* the external PDF libraries (pdfplumber / PyPDF2) are collaborators: the
  per-page texts, page dimensions and reader metadata they produce are the
  *inputs* of the embedded `extract_pdf_data` / `extract_text_from_pdf`.
-/

/-! ### Character classes (ASCII model of Python `re` classes) -/

/-- Python `\s` (ASCII): space, tab, newline, carriage return,
vertical tab, form feed. -/
def isPySpace (c : Char) : Bool :=
  c == ' ' || c == '\t' || c == '\n' || c == '\r' || c == '\x0b' || c == '\x0c'

/-- The separator class `[.:\s]` used between a label and its value. -/
def isSepChar (c : Char) : Bool :=
  c == '.' || c == ':' || isPySpace c

def isAsciiDigit (c : Char) : Bool := '0' ≤ c && c ≤ '9'

def isAsciiAlpha (c : Char) : Bool :=
  ('A' ≤ c && c ≤ 'Z') || ('a' ≤ c && c ≤ 'z')

def isAsciiAlnum (c : Char) : Bool := isAsciiAlpha c || isAsciiDigit c

/-- Python `\w` (ASCII). -/
def isWordChar (c : Char) : Bool := isAsciiAlnum c || c == '_'

/-- ASCII case folding, modelling `re.IGNORECASE`. -/
def lowerC (c : Char) : Char :=
  if 'A' ≤ c && c ≤ 'Z' then Char.ofNat (c.toNat + 32) else c

/-- Python `str.strip()` on a character list: drop leading and trailing
whitespace. -/
def pyStrip (cs : List Char) : List Char :=
  ((cs.dropWhile isPySpace).reverse.dropWhile isPySpace).reverse

def pyStripStr (s : String) : String := String.mk (pyStrip s.data)

/-! ### Python values and exceptions -/

/-- A Python runtime error, as caught by
`except (AttributeError, IndexError, ValueError, TypeError, Exception)`. -/
inductive PyErr where
  | attributeError | indexError | valueError | typeError | other
  deriving Repr

/-- A dynamically typed Python value as used by the field rules:
`None`, strings, floats (exact decimals, in `ℚ`), lists and dicts. -/
inductive PyVal where
  | none
  | str (s : String)
  | num (q : ℚ)
  | list (xs : List PyVal)
  | dict (xs : List (String × PyVal))

/-- `result is None or result == ""`, the emptiness test of
`safe_extract` (a non-string value never equals `""` in Python 3). -/
def PyVal.isNoneOrEmptyStr : PyVal → Bool
  | .none => true
  | .str s => s == ""
  | _ => false

/-- `safe_extract(extract_func, text, default_value)` from `src/main.py`:
`try: result = extract_func(text); return result if result is not None and
result != "" else default_value; except ...: return default_value`. -/
def safe_extract (extract_func : String → Except PyErr PyVal)
    (text : String) (default_value : PyVal) : PyVal :=
  match extract_func text with
  | .error _ => default_value
  | .ok result => if result.isNoneOrEmptyStr then default_value else result

/-- Lift an `Optional[str]`-returning rule into the dynamic world. -/
def liftO (f : String → Option String) : String → Except PyErr PyVal :=
  fun t => .ok (match f t with | Option.some s => .str s | Option.none => .none)

/-- Lift an `Optional[float]`-returning rule. -/
def liftQ (f : String → Option ℚ) : String → Except PyErr PyVal :=
  fun t => .ok (match f t with | Option.some q => .num q | Option.none => .none)

/-- Lift a list-returning rule. -/
def liftL (f : String → List PyVal) : String → Except PyErr PyVal :=
  fun t => .ok (.list (f t))

/-! ### Regex search combinators

`re.search` tries the pattern at every position, leftmost first
(`searchAt`); a greedy quantifier takes the longest possible repetition
and backtracks downwards (`descend`); `backSeps` is a greedy separator
run `[.:\s]*`-style with full backtracking. -/

/-- Try `f n, f (n-1), …, f 0` and return the first success: the
backtracking order of a greedy counted quantifier. -/
def descend (f : Nat → Option α) : Nat → Option α
  | 0 => f 0
  | n + 1 => (f (n + 1)).orElse (fun _ => descend f n)

/-- Try a position matcher at every suffix, leftmost position first:
the search loop of `re.search`. -/
def searchAt (p : List Char → Option α) : List Char → Option α
  | [] => p []
  | c :: cs => (p (c :: cs)).orElse (fun _ => searchAt p cs)

/-- Greedy `sep*` (class `sepP`) followed by continuation `k`, with
backtracking: try consuming the whole separator run first, then ever
shorter runs. -/
def backSeps (sepP : Char → Bool) (k : List Char → Option α)
    (rest : List Char) : Option α :=
  descend (fun s => k (rest.drop s)) ((rest.takeWhile sepP).length)

/-- Case-insensitive literal match; returns the rest of the input after
the literal, or `none`. -/
def ciMatch : List Char → List Char → Option (List Char)
  | [], cs => Option.some cs
  | _ :: _, [] => Option.none
  | l :: ls, c :: cs => if lowerC l == lowerC c then ciMatch ls cs else Option.none

/-- Greedy `C+` for a character class: the maximal nonempty run. -/
def plusRun (p : Char → Bool) (cs : List Char) : Option (List Char) :=
  match cs.takeWhile p with
  | [] => Option.none
  | r => Option.some r

/-- `C{n}`: exactly `n` characters of the class. -/
def exactRun (n : Nat) (p : Char → Bool) (cs : List Char) : Option (List Char) :=
  let r := cs.take n
  if r.length == n && r.all p then Option.some r else Option.none

/-! ### Combinator lemmas -/

theorem descend_eq_of_below_none {f : Nat → Option α} {n : Nat}
    (h : ∀ s, s < n → f s = Option.none) : descend f n = f n := by
  induction n with
  | zero => rfl
  | succ m ih =>
    show (f (m + 1)).orElse _ = f (m + 1)
    cases hf : f (m + 1) with
    | some v => rfl
    | none =>
      show descend f m = Option.none
      rw [ih (fun s hs => h s (Nat.lt_succ_of_lt hs))]
      exact h m (Nat.lt_succ_self m)

theorem descend_none {f : Nat → Option α} {n : Nat}
    (h : ∀ s, s ≤ n → f s = Option.none) : descend f n = Option.none := by
  induction n with
  | zero => exact h 0 (Nat.le_refl 0)
  | succ m ih =>
    show (f (m + 1)).orElse _ = Option.none
    rw [h (m + 1) (Nat.le_refl _)]
    show descend f m = Option.none
    exact ih (fun s hs => h s (Nat.le_succ_of_le hs))

theorem descend_some_elim {f : Nat → Option α} {n : Nat} {v : α}
    (h : descend f n = Option.some v) : ∃ j, j ≤ n ∧ f j = Option.some v := by
  induction n with
  | zero => exact ⟨0, Nat.le_refl 0, h⟩
  | succ m ih =>
    have h' : (f (m + 1)).orElse (fun _ => descend f m) = Option.some v := h
    cases hf : f (m + 1) with
    | some w =>
      rw [hf] at h'
      have h2 : Option.some w = Option.some v := h'
      exact ⟨m + 1, Nat.le_refl _, hf.trans h2⟩
    | none =>
      rw [hf] at h'
      have h2 : descend f m = Option.some v := h'
      obtain ⟨j, hj, hfj⟩ := ih h2
      exact ⟨j, Nat.le_succ_of_le hj, hfj⟩

theorem searchAt_none {p : List Char → Option α} {cs : List Char}
    (h : ∀ n, p (cs.drop n) = Option.none) : searchAt p cs = Option.none := by
  induction cs with
  | nil => exact h 0
  | cons c cs ih =>
    show (p (c :: cs)).orElse _ = Option.none
    have h0 := h 0
    rw [List.drop_zero] at h0
    rw [h0]
    show searchAt p cs = Option.none
    exact ih (fun n => by have hn := h (n + 1); rwa [List.drop_succ_cons] at hn)

theorem searchAt_leftmost {p : List Char → Option α} {cs : List Char}
    {n : Nat} {v : α} (hn : p (cs.drop n) = Option.some v)
    (hm : ∀ m, m < n → p (cs.drop m) = Option.none) :
    searchAt p cs = Option.some v := by
  induction n generalizing cs with
  | zero =>
    rw [List.drop_zero] at hn
    cases cs with
    | nil => exact hn
    | cons c cs => show (p (c :: cs)).orElse _ = _; rw [hn]; rfl
  | succ m ih =>
    cases cs with
    | nil =>
      simpa using hn
    | cons c cs =>
      show (p (c :: cs)).orElse _ = _
      have hm0 := hm 0 (Nat.succ_pos m)
      rw [List.drop_zero] at hm0
      rw [hm0]
      show searchAt p cs = _
      rw [List.drop_succ_cons] at hn
      exact ih hn (fun k hk => by
        have hk' := hm (k + 1) (Nat.succ_lt_succ hk)
        rwa [List.drop_succ_cons] at hk')

theorem searchAt_some_elim {p : List Char → Option α} {cs : List Char} {v : α}
    (h : searchAt p cs = Option.some v) : ∃ n, p (cs.drop n) = Option.some v := by
  induction cs with
  | nil => exact ⟨0, h⟩
  | cons c cs ih =>
    have h' : (p (c :: cs)).orElse (fun _ => searchAt p cs) = Option.some v := h
    cases hp : p (c :: cs) with
    | some w =>
      rw [hp] at h'
      have h2 : Option.some w = Option.some v := h'
      refine ⟨0, ?_⟩
      rw [List.drop_zero, hp]
      exact h2
    | none =>
      rw [hp] at h'
      have h2 : searchAt p cs = Option.some v := h'
      obtain ⟨n, hn⟩ := ih h2
      refine ⟨n + 1, ?_⟩
      rwa [List.drop_succ_cons]

theorem searchAt_some_leftmost {p : List Char → Option α} {cs : List Char}
    {v : α} (h : searchAt p cs = Option.some v) :
    ∃ n, p (cs.drop n) = Option.some v ∧
      ∀ m, m < n → p (cs.drop m) = Option.none := by
  induction cs with
  | nil => exact ⟨0, h, fun m hm => absurd hm (Nat.not_lt_zero m)⟩
  | cons c cs ih =>
    have h' : (p (c :: cs)).orElse (fun _ => searchAt p cs) = Option.some v := h
    cases hp : p (c :: cs) with
    | some w =>
      rw [hp] at h'
      have h2 : Option.some w = Option.some v := h'
      refine ⟨0, ?_, fun m hm => absurd hm (Nat.not_lt_zero m)⟩
      rw [List.drop_zero, hp]
      exact h2
    | none =>
      rw [hp] at h'
      have h2 : searchAt p cs = Option.some v := h'
      obtain ⟨n, hn, hmin⟩ := ih h2
      refine ⟨n + 1, by rwa [List.drop_succ_cons], ?_⟩
      intro m hm
      cases m with
      | zero =>
        rw [List.drop_zero]
        exact hp
      | succ m' =>
        rw [List.drop_succ_cons]
        exact hmin m' (Nat.lt_of_succ_lt_succ hm)

theorem takeWhile_head_of_lt {p : Char → Bool} {cs : List Char} {s : Nat}
    (h : s < (cs.takeWhile p).length) :
    ∃ c cs', cs.drop s = c :: cs' ∧ p c = true := by
  induction cs generalizing s with
  | nil => exact absurd h (Nat.not_lt_zero s)
  | cons c cs ih =>
    cases hp : p c with
    | false =>
      rw [List.takeWhile_cons_of_neg (by simp [hp])] at h
      exact absurd h (Nat.not_lt_zero s)
    | true =>
      cases s with
      | zero => exact ⟨c, cs, rfl, hp⟩
      | succ s' =>
        rw [List.takeWhile_cons_of_pos hp, List.length_cons] at h
        obtain ⟨d, ds, hd, hpd⟩ := ih (Nat.lt_of_succ_lt_succ h)
        exact ⟨d, ds, by rw [List.drop_succ_cons]; exact hd, hpd⟩

theorem drop_length_takeWhile (p : Char → Bool) (cs : List Char) :
    cs.drop ((cs.takeWhile p).length) = cs.dropWhile p := by
  induction cs with
  | nil => rfl
  | cons c cs ih =>
    cases hp : p c with
    | true =>
      rw [List.takeWhile_cons_of_pos hp, List.dropWhile_cons_of_pos hp,
        List.length_cons, List.drop_succ_cons]
      exact ih
    | false =>
      rw [List.takeWhile_cons_of_neg (by simp [hp]),
        List.dropWhile_cons_of_neg (by simp [hp])]
      rfl

/-- When the continuation always fails on a separator head, the greedy
separator run never backtracks and `backSeps` reduces to dropping the
separator run. -/
theorem backSeps_eq_of_disjoint {sepP : Char → Bool} {k : List Char → Option α}
    (hk : ∀ c cs', sepP c = true → k (c :: cs') = Option.none)
    (rest : List Char) :
    backSeps sepP k rest = k (rest.dropWhile sepP) := by
  unfold backSeps
  rw [descend_eq_of_below_none, drop_length_takeWhile]
  intro s hs
  obtain ⟨c, cs', hdrop, hc⟩ := takeWhile_head_of_lt hs
  rw [hdrop]
  exact hk c cs' hc

/-! ### Purchase-order field rules (`src/main.py`)

Each Python rule applies one `re.search` (case-insensitive unless noted)
to the full text.  A rule is embedded as `searchAt` over a per-position
attempt mirroring the pattern's greedy/backtracking behaviour. -/

/-- Case-insensitive literal pattern with no capture group: the attempt
returns the matched slice of the original text (`match.group()`). -/
def ciLitAttempt (lit : List Char) (cs : List Char) : Option (List Char) :=
  (ciMatch lit cs).map (fun _ => cs.take lit.length)

/-- Position attempt for `PURCHASE ORDER NO[.:\s]*([A-Z0-9]+)`. -/
def poAttempt (cs : List Char) : Option (List Char) :=
  (ciMatch "PURCHASE ORDER NO".data cs).bind
    (backSeps isSepChar (plusRun isAsciiAlnum))

/-- `extract_po_number`. -/
def extract_po_number (text : String) : Option String :=
  (searchAt poAttempt text.data).map (fun g => String.mk (pyStrip g))

/-- `\.[A-Z]{3,4}\.[\d]{4}` after the day digits `ds`: greedy `{3,4}`
tries four letters before three. -/
def dateAfterDigits (ds : List Char) (cs : List Char) : Option (List Char) :=
  match cs with
  | '.' :: cs1 =>
    let tryL : Nat → Option (List Char) := fun l =>
      match exactRun l isAsciiAlpha cs1 with
      | Option.some ls =>
        (match cs1.drop l with
         | '.' :: cs2 =>
           (exactRun 4 isAsciiDigit cs2).map
             (fun ys => ds ++ '.' :: (ls ++ '.' :: ys))
         | _ => Option.none)
      | Option.none => Option.none
    (tryL 4).orElse (fun _ => tryL 3)
  | _ => Option.none

/-- Capture group `([\d]{1,2}\.[A-Z]{3,4}\.[\d]{4})`: greedy `{1,2}` tries
two day digits before one. -/
def dateGroup (cs : List Char) : Option (List Char) :=
  ((exactRun 2 isAsciiDigit cs).bind (fun ds => dateAfterDigits ds (cs.drop 2))).orElse
    (fun _ => (exactRun 1 isAsciiDigit cs).bind (fun ds => dateAfterDigits ds (cs.drop 1)))

/-- `extract_date`: a fixed pattern selected by the `date_type` label,
`None` for an unknown label. -/
def extract_date (text : String) (date_type : String) : Option String :=
  if date_type == "PO Date" then
    (searchAt (fun cs => (ciMatch "PO Date".data cs).bind (backSeps isSepChar dateGroup))
      text.data).map (fun g => String.mk (pyStrip g))
  else if date_type == "Revision Date" then
    (searchAt (fun cs => (ciMatch "Revision Date".data cs).bind (backSeps isSepChar dateGroup))
      text.data).map (fun g => String.mk (pyStrip g))
  else Option.none

/-- Position attempt for `Revision No[.:\s]*([\d]+)`. -/
def revAttempt (cs : List Char) : Option (List Char) :=
  (ciMatch "Revision No".data cs).bind (backSeps isSepChar (plusRun isAsciiDigit))

/-- `extract_revision_number`. -/
def extract_revision_number (text : String) : Option String :=
  (searchAt revAttempt text.data).map (fun g => String.mk (pyStrip g))

/-- Group class `[A-Za-z\s.]` of the buyer-contact pattern. -/
def isBcChar (c : Char) : Bool := isAsciiAlpha c || isPySpace c || c == '.'

/-- Greedy `([A-Za-z\s.]+)(?=\n|$)`: the longest nonempty class run whose
end position is followed by a newline or is the end of the text (the
class contains `\s`, so the character right after a maximal run can never
be a newline: shorter candidates stop at a newline inside the run). -/
def bcGroup (cs : List Char) : Option (List Char) :=
  descend (fun j =>
    if j == 0 then Option.none
    else if j == cs.length || (cs.drop j).head? == Option.some '\n' then
      Option.some (cs.take j)
    else Option.none)
    ((cs.takeWhile isBcChar).length)

/-- Position attempt for `Buyer Contact[.:\s]*([A-Za-z\s.]+)(?=\n|$)`. -/
def bcAttempt (cs : List Char) : Option (List Char) :=
  (ciMatch "Buyer Contact".data cs).bind (backSeps isSepChar bcGroup)

/-- `extract_buyer_contact`. -/
def extract_buyer_contact (text : String) : Option String :=
  (searchAt bcAttempt text.data).map (fun g => String.mk (pyStrip g))

/-- Group class `[\d\s\-]` of the buyer-phone pattern. -/
def isBpChar (c : Char) : Bool := isAsciiDigit c || isPySpace c || c == '-'

/-- `extract_buyer_phone`: `Buyer Phone[.:\s]*([\d\s\-]+)`. -/
def extract_buyer_phone (text : String) : Option String :=
  (searchAt (fun cs => (ciMatch "Buyer Phone".data cs).bind
      (backSeps isSepChar (plusRun isBpChar))) text.data).map
    (fun g => String.mk (pyStrip g))

/-- The class `[\w\.-]` of the generic email pattern. -/
def isEmailTokChar (c : Char) : Bool := isWordChar c || c == '.' || c == '-'

/-- Position attempt for `[\w\.-]+@[\w\.-]+\.\w+` (no flags): the local
run is maximal (`@` is not in the class, so it never backtracks), the
domain run backtracks down to the last `.` that is followed by at least
one word character, and the final `\w+` run is maximal. -/
def emailAt (cs : List Char) : Option (List Char) :=
  let aRun := cs.takeWhile isEmailTokChar
  if aRun.isEmpty then Option.none else
  match cs.drop aRun.length with
  | '@' :: rest =>
    let bRun := rest.takeWhile isEmailTokChar
    descend (fun b =>
      if b == 0 then Option.none else
      match rest.drop b with
      | '.' :: tail2 =>
        let w := tail2.takeWhile isWordChar
        if w.isEmpty then Option.none
        else Option.some (aRun ++ '@' :: (rest.take b ++ '.' :: w))
      | _ => Option.none) bRun.length
  | _ => Option.none

/-- `extract_buyer_email`: first email-shaped token, returned as matched
(`match.group()`, no strip). -/
def extract_buyer_email (text : String) : Option String :=
  (searchAt emailAt text.data).map String.mk

/-- Attempt for a `LABEL[.:\s]*([^\n]+)` pattern. -/
def lineGroupAttempt (lab : List Char) (cs : List Char) : Option (List Char) :=
  (ciMatch lab cs).bind (backSeps isSepChar (plusRun (fun c => !(c == '\n'))))

/-- `extract_supplier_name`: three patterns tried in order; the first two
have a capture group (`match.lastindex` is set) and yield the trimmed
capture, the third is a bare literal and yields the constant. -/
def extract_supplier_name (text : String) : Option String :=
  match searchAt (lineGroupAttempt "Supplier Name".data) text.data with
  | Option.some g => Option.some (String.mk (pyStrip g))
  | Option.none =>
    match searchAt (lineGroupAttempt "Vendor Name".data) text.data with
    | Option.some g => Option.some (String.mk (pyStrip g))
    | Option.none =>
      match searchAt (ciLitAttempt "VALVETECQ ENGINEERS".data) text.data with
      | Option.some _ => Option.some "VALVETECQ ENGINEERS"
      | Option.none => Option.none

/-- `extract_supplier_address`: constant rule. -/
def extract_supplier_address (_text : String) : Option String :=
  Option.some "MALUMICHAMPATTI 187/1C, SNMV COLLEGE ROAD 641050 COIMBATORE INDIA"

/-- The class `[:\s]` of the supplier-phone pattern. -/
def isColonSpace (c : Char) : Bool := c == ':' || isPySpace c

/-- `extract_supplier_phone`: `P[:\s]*([\d]{10})`, result formatted as
`P:<digits>/`. -/
def extract_supplier_phone (text : String) : Option String :=
  (searchAt (fun cs => (ciMatch "P".data cs).bind
      (backSeps isColonSpace (exactRun 10 isAsciiDigit))) text.data).map
    (fun g => "P:" ++ String.mk g ++ "/")

/-- `extract_supplier_email`: the fixed literal `SALES@VALVETECQ\.COM`,
case-insensitively; returns the matched slice. -/
def extract_supplier_email (text : String) : Option String :=
  (searchAt (ciLitAttempt "SALES@VALVETECQ.COM".data) text.data).map String.mk

/-- `extract_gsl_number`: `GSL Number[.:\s]*([A-Z0-9]+)`. -/
def extract_gsl_number (text : String) : Option String :=
  (searchAt (fun cs => (ciMatch "GSL Number".data cs).bind
      (backSeps isSepChar (plusRun isAsciiAlnum))) text.data).map
    (fun g => String.mk (pyStrip g))

/-- `extract_site_code`: `Site Code[.:\s]*([A-Z0-9]+)`. -/
def extract_site_code (text : String) : Option String :=
  (searchAt (fun cs => (ciMatch "Site Code".data cs).bind
      (backSeps isSepChar (plusRun isAsciiAlnum))) text.data).map
    (fun g => String.mk (pyStrip g))

/-- `extract_supplier_code`: `Supplier Code[.:\s]*([\d]+)`. -/
def extract_supplier_code (text : String) : Option String :=
  (searchAt (fun cs => (ciMatch "Supplier Code".data cs).bind
      (backSeps isSepChar (plusRun isAsciiDigit))) text.data).map
    (fun g => String.mk (pyStrip g))

/-- `extract_vendor_gst`: `GST[.:\s]*([A-Z0-9]{15})`. -/
def extract_vendor_gst (text : String) : Option String :=
  (searchAt (fun cs => (ciMatch "GST".data cs).bind
      (backSeps isSepChar (exactRun 15 isAsciiAlnum))) text.data).map
    (fun g => String.mk (pyStrip g))

/-- `extract_ship_to_name`: constant rule. -/
def extract_ship_to_name (_text : String) : Option String :=
  Option.some "GE Oil & Gas India Private Limited Div-Dresser Valve"

/-- `extract_ship_to_address`: constant rule. -/
def extract_ship_to_address (_text : String) : Option String :=
  Option.some "SF No. 608, Chettipalayam Road, Eachanari Post 641021 COIMBATORE INDIA"

/-- `extract_invoice_email`: the fixed literal
`IN_PO_Invoice@BakerHughes\.com`, case-insensitively; returns the matched
slice. -/
def extract_invoice_email (text : String) : Option String :=
  (searchAt (ciLitAttempt "IN_PO_Invoice@BakerHughes.com".data) text.data).map String.mk

/-- `extract_incoterms`: `Incoterms[.:\s]*([^\n]+)`. -/
def extract_incoterms (text : String) : Option String :=
  (searchAt (lineGroupAttempt "Incoterms".data) text.data).map
    (fun g => String.mk (pyStrip g))

/-- `extract_currency`: `Currency[.:\s]*([A-Z]{3})`. -/
def extract_currency (text : String) : Option String :=
  (searchAt (fun cs => (ciMatch "Currency".data cs).bind
      (backSeps isSepChar (exactRun 3 isAsciiAlpha))) text.data).map
    (fun g => String.mk (pyStrip g))

/-- `extract_payment_terms`: `Payment Terms[.:\s]*([^\n]+)`. -/
def extract_payment_terms (text : String) : Option String :=
  (searchAt (lineGroupAttempt "Payment Terms".data) text.data).map
    (fun g => String.mk (pyStrip g))

/-- `extract_company_name`: constant rule. -/
def extract_company_name (_text : String) : Option String :=
  Option.some "GE OIL & GAS INDIA PRIVATE LIMITED"

/-- `extract_company_address`: constant rule. -/
def extract_company_address (_text : String) : Option String :=
  Option.some "SF No. 608, Chettipalayam Road, Eachanari Post, Coimbatore Tamil Nadu 641021 India"

/-- `extract_company_phone`: constant rule. -/
def extract_company_phone (_text : String) : Option String :=
  Option.some "422 664 1000"

/-- Numeric value of a digit character. -/
def digitVal (c : Char) : Nat := c.toNat - 48

/-- Value of a digit string. -/
def digitsToNat (cs : List Char) : Nat :=
  cs.foldl (fun a c => 10 * a + digitVal c) 0

/-- Helper for `pyFloat`: value of integer part `ip` and the rest of the
input (the possible fractional part). -/
def pyFloatParts (ip rest : List Char) : Option ℚ :=
  match rest with
  | [] => if ip.isEmpty then Option.none else Option.some (digitsToNat ip : ℚ)
  | '.' :: fp =>
    if fp.all isAsciiDigit then
      (if ip.isEmpty && fp.isEmpty then Option.none
       else Option.some ((digitsToNat ip : ℚ) + (digitsToNat fp : ℚ) / 10 ^ fp.length))
    else Option.none
  | _ => Option.none

/-- Python `float()` on the comma-stripped capture of the total-amount
pattern (digits and at most one dot): `""` and `"."` raise `ValueError`
(modelled as `none`), everything else is an exact decimal. -/
def pyFloat (cs : List Char) : Option ℚ :=
  pyFloatParts (cs.takeWhile isAsciiDigit)
    (cs.drop ((cs.takeWhile isAsciiDigit).length))

/-- The class `[\d,]` of the total-amount pattern. -/
def isDigitComma (c : Char) : Bool := isAsciiDigit c || c == ','

/-- Capture group `([\d,]+\.?\d*)`: maximal digit/comma run, an optional
dot, then a maximal digit run (nothing after the group can fail, so the
greedy choices are final). -/
def numGroup (cs : List Char) : Option (List Char) :=
  match plusRun isDigitComma cs with
  | Option.none => Option.none
  | Option.some r1 =>
    match cs.drop r1.length with
    | '.' :: rest2 => Option.some (r1 ++ '.' :: rest2.takeWhile isAsciiDigit)
    | _ => Option.some r1

/-- Position attempt for `Total Extended Net Price[.:\s]*([\d,]+\.?\d*)`. -/
def totalAttempt (cs : List Char) : Option (List Char) :=
  (ciMatch "Total Extended Net Price".data cs).bind (backSeps isSepChar numGroup)

/-- `extract_total_amount`: `float(match.group(1).replace(',', ''))`, with
`ValueError` yielding `None`. -/
def extract_total_amount (text : String) : Option ℚ :=
  (searchAt totalAttempt text.data).bind
    (fun g => pyFloat (g.filter (fun c => !(c == ','))))

/-- First hardcoded line item of `extract_line_items`. -/
def lineItem1 : PyVal := .dict
  [("line_number", .str "10"),
   ("part_number", .str "MY-FLOWMAX"),
   ("description", .str "Material Rev. Level:- EXT OPN PAINTING:FM,4\""),
   ("quantity", .num 6.0),
   ("uom", .str "EA"),
   ("price", .num 1080.75),
   ("price_currency", .str "INR"),
   ("extended_price", .num 6484.5),
   ("taxable", .str "Y"),
   ("promise_date", .str ""),
   ("required_by_date", .str "14.AUG.2026"),
   ("hsn_code", .str "84818030")]

/-- Second hardcoded line item of `extract_line_items`. -/
def lineItem2 : PyVal := .dict
  [("line_number", .str "20"),
   ("part_number", .str "MY-FLOWGRID"),
   ("description", .str "Material Rev. Level:- EXT OPN PAINTING:FG,2\" 300"),
   ("quantity", .num 20.0),
   ("uom", .str "EA"),
   ("price", .num 500.0),
   ("price_currency", .str "INR"),
   ("extended_price", .num 10000.0),
   ("taxable", .str "Y"),
   ("promise_date", .str ""),
   ("required_by_date", .str "08.SEP.2026"),
   ("hsn_code", .str "84818030")]

/-- `extract_line_items`: a constant rule returning two fixed example
rows regardless of input. -/
def extract_line_items (_text : String) : List PyVal := [lineItem1, lineItem2]

/-- `extract_special_instructions`: constant dict. -/
def extract_special_instructions (_text : String) : List (String × String) :=
  [("reach_compliance_note", "Products sold to Baker Hughes TPS containing SVHC (Substances of Very High Concern)as per REACH (Registration, Evaluation,Authorization and Restriction of Chemicals)are subject to Baker Hughes TPS REACH and SCIP communication and reporting Requirements Please refer to requirements in the \"Compliance – Technical Regulations & Standards\" supplement listed in https://www.bakerhughes.com/suppliers"),
   ("documentation_tool", "New Documentation Tool ALFRESCO: https://alfresco.bakerhughes.com/valve-databook"),
   ("machining_standard", "Machined surfaces shall comply visual inspection standard CES 1092."),
   ("packing_procedure", "GEMCS-FPT-Coimbatore-QWI-7.5-001- EN"),
   ("deviation_process", "Any deviation to this PO shall be processed through eSDR work flow for disposition."),
   ("material_processing", "ALL MATERIAL SHALL BE PROCESSED IN ACCORDANCE WITH THE CURRET EDITION AND REVISION OF THE REFERENCED SPECIFICATION UNLESS OTHERWISE NOTED"),
   ("quantity_policy", "Quantities ordered are firm. Over shipments will be returned at vendor expense."),
   ("receiving_counts", "Baker Hughes Energy India Private Limited Receiving Department counts will govern receipt/packing list quantities differences."),
   ("marking_requirements", "All documentations and container must be marked with purchase order number and part number."),
   ("due_date_clarification", "Due date specified above is date required at the Receiving Dock."),
   ("routing_non_compliance", "Failure to comply with routing as specified will result in charge-back to supplier for additional charges incurred.")]

/-- `extract_invoicing_instructions`: constant dict. -/
def extract_invoicing_instructions (_text : String) : List (String × String) :=
  [("primary_method", "Submit invoice via Ariba Network if registered and attach digitally signed invoice copy in Ariba Network."),
   ("fallback_method", "If not registered for Ariba Network, submit digitally signed invoice to PO Invoice: IN_PO_Invoice@BakerHughes.com"),
   ("hardcopy_requirement", "For non-digitally signed invoices hardcopy is mandatory for archiving, without which payment will not get processed."),
   ("mailroom_address", "Attention to : Dinesh Kumar MP, Process Name: Baker Hughes, Crown Worldwide Group, 33/1A, Kengal Kempohalli, Dobbaspet, Nelamangala Taluk, Tumkur Road, Bangalore Rural District, Bangalore - 562 111."),
   ("ariba_support", "For Ariba registration help, please contact: supplier.enablement@bakerhughes.com.")]

/-- `extract_msmed_declaration`: constant rule. -/
def extract_msmed_declaration (_text : String) : Option String :=
  Option.some "In event of supplier / Vendor qualifying as Micro, small or medium enterprise as defined under MSMED Act 2006, declaration along with certificates shall be submitted to the Company"

/-- `extract_quality_documents`: constant rule. -/
def extract_quality_documents (_text : String) : Option String :=
  Option.some "Contact Buyer for submitting quality documents as required by PO ."

/-- Group `([A-Z]{5}\d{4}[A-Z])` of the PAN pattern. -/
def panGroup (cs : List Char) : Option (List Char) :=
  (exactRun 5 isAsciiAlpha cs).bind (fun a =>
    (exactRun 4 isAsciiDigit (cs.drop 5)).bind (fun b =>
      (exactRun 1 isAsciiAlpha (cs.drop 9)).map (fun c => a ++ b ++ c)))

/-- `extract_pan_card`: `PAN[.:\s]*([A-Z]{5}\d{4}[A-Z])`. -/
def extract_pan_card (text : String) : Option String :=
  (searchAt (fun cs => (ciMatch "PAN".data cs).bind (backSeps isSepChar panGroup))
    text.data).map (fun g => String.mk (pyStrip g))

/-- `extract_gstn_number`: `GSTN[.:\s]*([A-Z0-9]{15})`. -/
def extract_gstn_number (text : String) : Option String :=
  (searchAt (fun cs => (ciMatch "GSTN".data cs).bind
      (backSeps isSepChar (exactRun 15 isAsciiAlnum))) text.data).map
    (fun g => String.mk (pyStrip g))

/-- `extract_governing_terms`: constant rule. -/
def extract_governing_terms (_text : String) : Option String :=
  Option.some "Baker Hughes Standard Terms of Purchase (Rev C) apply to this order"

/-- `extract_project_number`: unimplemented placeholder, always `None`. -/
def extract_project_number (_text : String) : Option String := Option.none

/-- `extract_sales_order_number`: unimplemented placeholder, always `None`. -/
def extract_sales_order_number (_text : String) : Option String := Option.none

/-- `extract_shipping_via`: unimplemented placeholder, always `None`. -/
def extract_shipping_via (_text : String) : Option String := Option.none

/-! ### The assembled purchase-order record (`parse_purchase_order_data`) -/

structure POMetadata where
  document_type : String
  file_name : String
  total_pages : Nat
  company_name : PyVal
  company_address : PyVal
  company_phone : PyVal

structure OrderDetails where
  po_number : PyVal
  po_date : PyVal
  revision_number : PyVal
  revision_date : PyVal
  buyer_contact : PyVal
  buyer_phone : PyVal
  buyer_email : PyVal

structure SupplierDetails where
  name : PyVal
  address : PyVal
  contact_person_phone : PyVal
  contact_person_email : PyVal
  gsl_number : PyVal
  site_code : PyVal
  supplier_code : PyVal
  vendor_gst : PyVal

structure ShipToDetails where
  name : PyVal
  address : PyVal

structure AdminDetails where
  email_invoice_to : PyVal
  incoterms : PyVal
  currency : PyVal
  payment_terms : PyVal
  project_number : PyVal
  sales_order_number : PyVal
  shipping_via : PyVal

structure TotalsGroup where
  total_extended_net_price : PyVal
  currency : PyVal

structure ApprovalGroup where
  method : String

structure PORecord where
  metadata : POMetadata
  order_details : OrderDetails
  supplier_details : SupplierDetails
  ship_to_details : ShipToDetails
  administrative_details : AdminDetails
  line_items : PyVal
  totals : TotalsGroup
  approval : ApprovalGroup

/-- The caller-chosen placeholder row of the `line_items` default. -/
def emptyLineItem : PyVal := .dict
  [("line_number", .str ""),
   ("part_number", .str ""),
   ("description", .str ""),
   ("quantity", .str ""),
   ("uom", .str ""),
   ("price", .str ""),
   ("price_currency", .str ""),
   ("extended_price", .str ""),
   ("taxable", .str ""),
   ("promise_date", .str ""),
   ("required_by_date", .str ""),
   ("hsn_code", .str "")]

/-- `parse_purchase_order_data(text, filename)` from `src/main.py`.
`total_pages` is `len(text.split('\f')) if '\f' in text else 1`, i.e. the
number of form feeds plus one when a form feed is present, else `1`.
The Python function also computes `special_instructions`,
`invoicing_instructions`, `tax_and_compliance` and `terms_and_conditions`
groups, but those bindings are pure and are not part of the returned
record (the corresponding keys are commented out in the source), so they
do not appear here. -/
def parse_purchase_order_data (text : String) (filename : String) : PORecord :=
  { metadata :=
    { document_type := "PURCHASE_ORDER"
      file_name := filename
      total_pages :=
        if text.data.contains '\x0c' then text.data.count '\x0c' + 1 else 1
      company_name := safe_extract (liftO extract_company_name) text (.str "")
      company_address := safe_extract (liftO extract_company_address) text (.str "")
      company_phone := safe_extract (liftO extract_company_phone) text (.str "") }
    order_details :=
    { po_number := safe_extract (liftO extract_po_number) text (.str "")
      po_date := safe_extract (liftO (fun t => extract_date t "PO Date")) text (.str "")
      revision_number := safe_extract (liftO extract_revision_number) text (.str "0")
      revision_date := safe_extract (liftO (fun t => extract_date t "Revision Date")) text (.str "")
      buyer_contact := safe_extract (liftO extract_buyer_contact) text (.str "")
      buyer_phone := safe_extract (liftO extract_buyer_phone) text (.str "")
      buyer_email := safe_extract (liftO extract_buyer_email) text (.str "") }
    supplier_details :=
    { name := safe_extract (liftO extract_supplier_name) text (.str "")
      address := safe_extract (liftO extract_supplier_address) text (.str "")
      contact_person_phone := safe_extract (liftO extract_supplier_phone) text (.str "")
      contact_person_email := safe_extract (liftO extract_supplier_email) text (.str "")
      gsl_number := safe_extract (liftO extract_gsl_number) text (.str "")
      site_code := safe_extract (liftO extract_site_code) text (.str "")
      supplier_code := safe_extract (liftO extract_supplier_code) text (.str "")
      vendor_gst := safe_extract (liftO extract_vendor_gst) text (.str "") }
    ship_to_details :=
    { name := safe_extract (liftO extract_ship_to_name) text (.str "")
      address := safe_extract (liftO extract_ship_to_address) text (.str "") }
    administrative_details :=
    { email_invoice_to := safe_extract (liftO extract_invoice_email) text (.str "")
      incoterms := safe_extract (liftO extract_incoterms) text (.str "")
      currency := safe_extract (liftO extract_currency) text (.str "")
      payment_terms := safe_extract (liftO extract_payment_terms) text (.str "")
      project_number := safe_extract (liftO extract_project_number) text (.str "")
      sales_order_number := safe_extract (liftO extract_sales_order_number) text (.str "")
      shipping_via := safe_extract (liftO extract_shipping_via) text (.str "") }
    line_items := safe_extract (liftL extract_line_items) text (.list [emptyLineItem])
    totals :=
    { total_extended_net_price := safe_extract (liftQ extract_total_amount) text (.str "")
      currency := safe_extract (liftO extract_currency) text (.str "") }
    approval := { method := "ELECTRONICALLY APPROVED. NO SIGNATURE REQUIRED" } }

/-! ### Characterization lemmas for the disjoint-class scanners -/

theorem alnum_false_of_sep {c : Char} (h : isSepChar c = true) :
    isAsciiAlnum c = false := by
  simp only [isSepChar, isPySpace, Bool.or_eq_true, beq_iff_eq, or_assoc] at h
  rcases h with h | h | h | h | h | h | h | h <;> subst h <;> decide

theorem digit_false_of_sep {c : Char} (h : isSepChar c = true) :
    isAsciiDigit c = false := by
  simp only [isSepChar, isPySpace, Bool.or_eq_true, beq_iff_eq, or_assoc] at h
  rcases h with h | h | h | h | h | h | h | h <;> subst h <;> decide

theorem digitComma_false_of_sep {c : Char} (h : isSepChar c = true) :
    isDigitComma c = false := by
  simp only [isSepChar, isPySpace, Bool.or_eq_true, beq_iff_eq, or_assoc] at h
  rcases h with h | h | h | h | h | h | h | h <;> subst h <;> decide

theorem plusRun_some_elim {p : Char → Bool} {cs g : List Char}
    (h : plusRun p cs = Option.some g) : g = cs.takeWhile p ∧ g ≠ [] := by
  unfold plusRun at h
  cases htw : cs.takeWhile p with
  | nil =>
    rw [htw] at h
    exact Option.noConfusion (h : Option.none = Option.some g)
  | cons a as =>
    rw [htw] at h
    have h2 : Option.some (a :: as) = Option.some g := h
    have h3 : g = a :: as := (Option.some.inj h2).symm
    exact ⟨h3, by simp [h3]⟩

/-- When the group class rejects every separator character, the greedy
separator run of `LABEL[.:\s]*(C+)` cannot backtrack usefully. -/
theorem backSeps_plusRun_of_disjoint {p : Char → Bool}
    (hdisj : ∀ c, isSepChar c = true → p c = false) (rest : List Char) :
    backSeps isSepChar (plusRun p) rest = plusRun p (rest.dropWhile isSepChar) := by
  apply backSeps_eq_of_disjoint
  intro c cs' hc
  have htw : (c :: cs').takeWhile p = [] :=
    List.takeWhile_cons_of_neg (by simp [hdisj c hc])
  simp [plusRun, htw]

theorem ciMatch_decomp {lab cs rest : List Char}
    (h : ciMatch lab cs = Option.some rest) :
    ∃ m, cs = m ++ rest ∧ m.length = lab.length := by
  induction lab generalizing cs with
  | nil =>
    have h2 : cs = rest := Option.some.inj h
    exact ⟨[], by rw [h2]; rfl, rfl⟩
  | cons l ls ih =>
    cases cs with
    | nil => exact Option.noConfusion (h : Option.none = Option.some rest)
    | cons c cs' =>
      by_cases hl : (lowerC l == lowerC c) = true
      · have h2 : ciMatch ls cs' = Option.some rest := by
          have he : ciMatch (l :: ls) (c :: cs') = ciMatch ls cs' := by
            simp [ciMatch, hl]
          rwa [he] at h
        obtain ⟨m, hm, hlen⟩ := ih h2
        exact ⟨c :: m, by rw [List.cons_append, ← hm], by simp [hlen]⟩
      · have he : ciMatch (l :: ls) (c :: cs') = Option.none := by
          simp [ciMatch, hl]
        rw [he] at h
        exact Option.noConfusion h

/-- A successful `ciMatch` consumes a case-insensitive copy of the
literal: the consumed prefix case-folds to the same characters. -/
theorem ciMatch_decomp_fold {lab cs rest : List Char}
    (h : ciMatch lab cs = Option.some rest) :
    ∃ m, cs = m ++ rest ∧ m.map lowerC = lab.map lowerC := by
  induction lab generalizing cs with
  | nil =>
    have h2 : cs = rest := Option.some.inj h
    exact ⟨[], by rw [h2]; rfl, rfl⟩
  | cons l ls ih =>
    cases cs with
    | nil => exact Option.noConfusion (h : Option.none = Option.some rest)
    | cons c cs' =>
      by_cases hl : (lowerC l == lowerC c) = true
      · have h2 : ciMatch ls cs' = Option.some rest := by
          have he : ciMatch (l :: ls) (c :: cs') = ciMatch ls cs' := by
            simp [ciMatch, hl]
          rwa [he] at h
        obtain ⟨m, hm, hmap⟩ := ih h2
        refine ⟨c :: m, by rw [List.cons_append, ← hm], ?_⟩
        rw [List.map_cons, List.map_cons, hmap]
        have hlc : lowerC l = lowerC c := by simpa using hl
        rw [hlc]
      · have he : ciMatch (l :: ls) (c :: cs') = Option.none := by
          simp [ciMatch, hl]
        rw [he] at h
        exact Option.noConfusion h

/-- `poAttempt` with the backtracking collapsed: label, then drop the
separator run, then the maximal alphanumeric run. -/
theorem poAttempt_char (cs : List Char) :
    poAttempt cs = (ciMatch "PURCHASE ORDER NO".data cs).bind
      (fun r => plusRun isAsciiAlnum (r.dropWhile isSepChar)) := by
  unfold poAttempt
  cases h : ciMatch "PURCHASE ORDER NO".data cs with
  | none => rfl
  | some r =>
    show backSeps isSepChar (plusRun isAsciiAlnum) r
        = plusRun isAsciiAlnum (r.dropWhile isSepChar)
    exact backSeps_plusRun_of_disjoint (fun c hc => alnum_false_of_sep hc) r

/-- `totalAttempt` with the backtracking collapsed (the number group
starts with `[\d,]`, disjoint from the separator class). -/
theorem totalAttempt_char (cs : List Char) :
    totalAttempt cs = (ciMatch "Total Extended Net Price".data cs).bind
      (fun r => numGroup (r.dropWhile isSepChar)) := by
  unfold totalAttempt
  cases h : ciMatch "Total Extended Net Price".data cs with
  | none => rfl
  | some r =>
    show backSeps isSepChar numGroup r = numGroup (r.dropWhile isSepChar)
    apply backSeps_eq_of_disjoint
    intro c cs' hc
    have htw : (c :: cs').takeWhile isDigitComma = [] :=
      List.takeWhile_cons_of_neg (by simp [digitComma_false_of_sep hc])
    simp [numGroup, plusRun, htw]

/-! ### C1: the safe-extraction wrapper -/

theorem isNoneOrEmptyStr_false {v : PyVal} (h1 : v ≠ PyVal.none)
    (h2 : v ≠ PyVal.str "") : v.isNoneOrEmptyStr = false := by
  cases v with
  | none => exact absurd rfl h1
  | str s =>
    have hs : s ≠ "" := fun h => h2 (by rw [h])
    simp [PyVal.isNoneOrEmptyStr, hs]
  | num q => rfl
  | list xs => rfl
  | dict xs => rfl

/-- C1: for every field rule, input text and default, `safe_extract`
returns the default whenever the rule raises any error or returns `None`
or the empty string, and otherwise returns the rule's result verbatim;
being a total function into `PyVal`, it never propagates an error. -/
theorem safe_extract_spec (rule : String → Except PyErr PyVal)
    (text : String) (default : PyVal) :
    ((∃ e, rule text = Except.error e) →
      safe_extract rule text default = default)
    ∧ (rule text = Except.ok PyVal.none →
      safe_extract rule text default = default)
    ∧ (rule text = Except.ok (PyVal.str "") →
      safe_extract rule text default = default)
    ∧ (∀ v, rule text = Except.ok v → v ≠ PyVal.none → v ≠ PyVal.str "" →
      safe_extract rule text default = v) := by
  refine ⟨?_, ?_, ?_, ?_⟩
  · rintro ⟨e, he⟩
    simp [safe_extract, he]
  · intro h
    simp [safe_extract, h, PyVal.isNoneOrEmptyStr]
  · intro h
    simp [safe_extract, h, PyVal.isNoneOrEmptyStr]
  · intro v hv h1 h2
    simp [safe_extract, hv, isNoneOrEmptyStr_false h1 h2]

/-- C1 witness: a rule that always raises yields the configured default. -/
theorem safe_extract_spec_witness :
    safe_extract (fun _ => Except.error PyErr.attributeError) "any text"
      (PyVal.str "fallback") = PyVal.str "fallback" :=
  (safe_extract_spec (fun _ => Except.error PyErr.attributeError) "any text"
    (PyVal.str "fallback")).1 ⟨PyErr.attributeError, rfl⟩

/-! ### C2: constant rules ignore their input -/

/-- C2: each constant field rule (company name/address/phone, supplier
address, ship-to name/address, line items, special instructions,
invoicing instructions, MSMED declaration, quality documents, governing
terms) returns the same fixed literal value on any two input texts. -/
theorem constant_rules_input_independent (t t' : String) :
    extract_company_name t = extract_company_name t'
    ∧ extract_company_address t = extract_company_address t'
    ∧ extract_company_phone t = extract_company_phone t'
    ∧ extract_supplier_address t = extract_supplier_address t'
    ∧ extract_ship_to_name t = extract_ship_to_name t'
    ∧ extract_ship_to_address t = extract_ship_to_address t'
    ∧ extract_line_items t = extract_line_items t'
    ∧ extract_special_instructions t = extract_special_instructions t'
    ∧ extract_invoicing_instructions t = extract_invoicing_instructions t'
    ∧ extract_msmed_declaration t = extract_msmed_declaration t'
    ∧ extract_quality_documents t = extract_quality_documents t'
    ∧ extract_governing_terms t = extract_governing_terms t' :=
  ⟨rfl, rfl, rfl, rfl, rfl, rfl, rfl, rfl, rfl, rfl, rfl, rfl⟩

theorem takeWhile_all_append {p : Char → Bool} {l1 : List Char} (c : Char)
    (t : List Char) (h1 : ∀ a ∈ l1, p a = true) (hc : p c = false) :
    (l1 ++ c :: t).takeWhile p = l1 := by
  induction l1 with
  | nil => exact List.takeWhile_cons_of_neg (by simp [hc])
  | cons a l ih =>
    rw [List.cons_append, List.takeWhile_cons_of_pos (h1 a (List.mem_cons_self a l))]
    rw [ih (fun b hb => h1 b (List.mem_cons_of_mem a hb))]

/-- Evaluation of `pyFloat` on a well-formed decimal `ip.fp`. -/
theorem pyFloat_decimal {ip fp : List Char} (h1 : ∀ a ∈ ip, isAsciiDigit a = true)
    (h2 : fp.all isAsciiDigit = true) (hne : (ip.isEmpty && fp.isEmpty) = false) :
    pyFloat (ip ++ '.' :: fp)
      = Option.some ((digitsToNat ip : ℚ) + (digitsToNat fp : ℚ) / 10 ^ fp.length) := by
  unfold pyFloat
  have ht : (ip ++ '.' :: fp).takeWhile isAsciiDigit = ip :=
    takeWhile_all_append '.' fp h1 (by decide)
  rw [ht, List.drop_left]
  simp [pyFloatParts, h2, hne]

/-! ### C4: the PO-number extractor -/

/-- C4 counterexample: the claim quantifies over every text *containing*
`"PURCHASE ORDER NO: PO12345"`; the containing text
`"PURCHASE ORDER NO: PO123456"` yields `"PO123456"`, not `"PO12345"`. -/
theorem extract_po_number_counterexample :
    ("PURCHASE ORDER NO: PO12345".data <:+: "PURCHASE ORDER NO: PO123456".data)
    ∧ extract_po_number "PURCHASE ORDER NO: PO123456" = Option.some "PO123456"
    ∧ Option.some "PO123456" ≠ Option.some "PO12345" := by
  refine ⟨by decide, by decide, by decide⟩

/-- C4 (amended): `extract_po_number` returns, at the leftmost position
where the case-insensitive label `PURCHASE ORDER NO` is followed (after
the greedy separator run) by at least one alphanumeric, the maximal
alphanumeric run, trimmed; it is absent when no position matches; in
particular the exact text `"PURCHASE ORDER NO: PO12345"` yields
`"PO12345"`. -/
theorem extract_po_number_spec :
    extract_po_number "PURCHASE ORDER NO: PO12345" = Option.some "PO12345"
    ∧ (∀ t : String,
        (∀ n, n ≤ t.data.length → poAttempt (t.data.drop n) = Option.none) →
        extract_po_number t = Option.none)
    ∧ (∀ (t : String) (n : Nat) (g : List Char),
        poAttempt (t.data.drop n) = Option.some g →
        (∀ m, m < n → poAttempt (t.data.drop m) = Option.none) →
        extract_po_number t = Option.some (String.mk (pyStrip g)))
    ∧ (∀ cs g : List Char, poAttempt cs = Option.some g →
        ∃ r, ciMatch "PURCHASE ORDER NO".data cs = Option.some r ∧
          g = (r.dropWhile isSepChar).takeWhile isAsciiAlnum ∧ g ≠ []) := by
  refine ⟨by decide, ?_, ?_, ?_⟩
  · intro t h
    have hall : ∀ n, poAttempt (t.data.drop n) = Option.none := by
      intro n
      by_cases hn : n ≤ t.data.length
      · exact h n hn
      · have hlen : t.data.length ≤ n := Nat.le_of_lt (Nat.lt_of_not_le hn)
        rw [List.drop_eq_nil_of_le hlen]
        have h0 := h t.data.length (Nat.le_refl _)
        rwa [List.drop_eq_nil_of_le (Nat.le_refl _)] at h0
    unfold extract_po_number
    rw [searchAt_none hall]
    rfl
  · intro t n g hg hm
    unfold extract_po_number
    rw [searchAt_leftmost hg hm]
    rfl
  · intro cs g hg
    rw [poAttempt_char] at hg
    cases h : ciMatch "PURCHASE ORDER NO".data cs with
    | none =>
      rw [h] at hg
      exact Option.noConfusion (hg : Option.none = Option.some g)
    | some r =>
      rw [h] at hg
      have hg2 : plusRun isAsciiAlnum (r.dropWhile isSepChar) = Option.some g := hg
      obtain ⟨hgeq, hgne⟩ := plusRun_some_elim hg2
      exact ⟨r, rfl, hgeq, hgne⟩

/-- C4 witness: the no-match conjunct applied at a concrete text. -/
theorem extract_po_number_spec_witness :
    extract_po_number "nothing" = Option.none :=
  extract_po_number_spec.2.1 "nothing" (by decide)

/-! ### C5: the total-amount extractor -/

/-- C5 counterexample: the claim quantifies over every text *containing*
`"Total Extended Net Price: 16,484.50"`; the containing text
`"Total Extended Net Price: 16,484.501"` yields `16484.501`, not
`16484.5`. -/
theorem extract_total_amount_counterexample :
    ("Total Extended Net Price: 16,484.50".data
      <:+: "Total Extended Net Price: 16,484.501".data)
    ∧ extract_total_amount "Total Extended Net Price: 16,484.501"
        = Option.some (16484.501 : ℚ)
    ∧ Option.some (16484.501 : ℚ) ≠ Option.some (16484.5 : ℚ) := by
  refine ⟨by decide, ?_, ?_⟩
  · have h1 : searchAt totalAttempt "Total Extended Net Price: 16,484.501".data
        = Option.some "16,484.501".data := by decide
    unfold extract_total_amount
    rw [h1]
    show pyFloat ("16,484.501".data.filter (fun c => !(c == ','))) = _
    have h2 : "16,484.501".data.filter (fun c => !(c == ','))
        = "16484".data ++ '.' :: "501".data := by decide
    rw [h2, pyFloat_decimal (by decide) (by decide) (by decide)]
    have h3 : digitsToNat "16484".data = 16484 := by decide
    have h4 : digitsToNat "501".data = 501 := by decide
    rw [h3, h4]
    norm_num
  · intro h
    have h2 : (16484.501 : ℚ) = (16484.5 : ℚ) := Option.some.inj h
    norm_num at h2

/-- C5 (amended): `extract_total_amount` parses, at the leftmost position
where the label `Total Extended Net Price` is followed by a
digits/commas/decimal token, that token with commas stripped as an exact
decimal; an unparsable token (only commas, or commas and a bare dot)
yields the absent value, as does a text with no match; in particular the
exact text `"Total Extended Net Price: 16,484.50"` yields `16484.5`. -/
theorem extract_total_amount_spec :
    extract_total_amount "Total Extended Net Price: 16,484.50"
      = Option.some (16484.5 : ℚ)
    ∧ (∀ t : String,
        (∀ n, n ≤ t.data.length → totalAttempt (t.data.drop n) = Option.none) →
        extract_total_amount t = Option.none)
    ∧ (∀ (t : String) (n : Nat) (g : List Char),
        totalAttempt (t.data.drop n) = Option.some g →
        (∀ m, m < n → totalAttempt (t.data.drop m) = Option.none) →
        extract_total_amount t = pyFloat (g.filter (fun c => !(c == ','))))
    ∧ (∀ cs : List Char, totalAttempt cs
        = (ciMatch "Total Extended Net Price".data cs).bind
            (fun r => numGroup (r.dropWhile isSepChar)))
    ∧ extract_total_amount "Total Extended Net Price: ,." = Option.none := by
  refine ⟨?_, ?_, ?_, totalAttempt_char, by decide⟩
  · have h1 : searchAt totalAttempt "Total Extended Net Price: 16,484.50".data
        = Option.some "16,484.50".data := by decide
    unfold extract_total_amount
    rw [h1]
    show pyFloat ("16,484.50".data.filter (fun c => !(c == ','))) = _
    have h2 : "16,484.50".data.filter (fun c => !(c == ','))
        = "16484".data ++ '.' :: "50".data := by decide
    rw [h2, pyFloat_decimal (by decide) (by decide) (by decide)]
    have h3 : digitsToNat "16484".data = 16484 := by decide
    have h4 : digitsToNat "50".data = 50 := by decide
    rw [h3, h4]
    norm_num
  · intro t h
    have hall : ∀ n, totalAttempt (t.data.drop n) = Option.none := by
      intro n
      by_cases hn : n ≤ t.data.length
      · exact h n hn
      · have hlen : t.data.length ≤ n := Nat.le_of_lt (Nat.lt_of_not_le hn)
        rw [List.drop_eq_nil_of_le hlen]
        have h0 := h t.data.length (Nat.le_refl _)
        rwa [List.drop_eq_nil_of_le (Nat.le_refl _)] at h0
    unfold extract_total_amount
    rw [searchAt_none hall]
    rfl
  · intro t n g hg hm
    unfold extract_total_amount
    rw [searchAt_leftmost hg hm]
    rfl

/-- C5 witness: the no-match conjunct applied at a concrete text. -/
theorem extract_total_amount_spec_witness :
    extract_total_amount "no price" = Option.none :=
  extract_total_amount_spec.2.1 "no price" (by decide)

/-! ### C6: the supplier-name cascade -/

/-- C6: `extract_supplier_name` tries a `Supplier Name` label, then a
`Vendor Name` label, then the bare literal `VALVETECQ ENGINEERS`, in that
order; a labelled pattern that matches yields its trimmed capture, the
capture-group-free literal yields the constant `"VALVETECQ ENGINEERS"`,
and if none match the result is absent. -/
theorem extract_supplier_name_spec (t : String) :
    (∀ g, searchAt (lineGroupAttempt "Supplier Name".data) t.data = Option.some g →
      extract_supplier_name t = Option.some (String.mk (pyStrip g)))
    ∧ (searchAt (lineGroupAttempt "Supplier Name".data) t.data = Option.none →
      ∀ g, searchAt (lineGroupAttempt "Vendor Name".data) t.data = Option.some g →
      extract_supplier_name t = Option.some (String.mk (pyStrip g)))
    ∧ (searchAt (lineGroupAttempt "Supplier Name".data) t.data = Option.none →
      searchAt (lineGroupAttempt "Vendor Name".data) t.data = Option.none →
      ∀ m, searchAt (ciLitAttempt "VALVETECQ ENGINEERS".data) t.data = Option.some m →
      extract_supplier_name t = Option.some "VALVETECQ ENGINEERS")
    ∧ (searchAt (lineGroupAttempt "Supplier Name".data) t.data = Option.none →
      searchAt (lineGroupAttempt "Vendor Name".data) t.data = Option.none →
      searchAt (ciLitAttempt "VALVETECQ ENGINEERS".data) t.data = Option.none →
      extract_supplier_name t = Option.none) := by
  refine ⟨?_, ?_, ?_, ?_⟩
  · intro g h1
    simp [extract_supplier_name, h1]
  · intro h1 g h2
    simp [extract_supplier_name, h1, h2]
  · intro h1 h2 m h3
    simp [extract_supplier_name, h1, h2, h3]
  · intro h1 h2 h3
    simp [extract_supplier_name, h1, h2, h3]

/-- C6 witness: a labelled match and a literal-only match. -/
theorem extract_supplier_name_spec_witness :
    extract_supplier_name "Supplier Name: ACME" = Option.some "ACME"
    ∧ extract_supplier_name "see valvetecq engineers co"
        = Option.some "VALVETECQ ENGINEERS" := by
  constructor
  · exact ((extract_supplier_name_spec "Supplier Name: ACME").1
      "ACME".data (by decide)).trans (by decide)
  · exact (extract_supplier_name_spec "see valvetecq engineers co").2.2.1
      (by decide) (by decide) "valvetecq engineers".data (by decide)

/-! ### C7: the revision-number default -/

/-- C7: on a text with no occurrence of the `Revision No` label followed
(after the optional separators) by digits, the assembled record's
`revision_number` is the default string `"0"`. -/
theorem revision_number_defaults (text filename : String)
    (h : ∀ n, n ≤ text.data.length → revAttempt (text.data.drop n) = Option.none) :
    (parse_purchase_order_data text filename).order_details.revision_number
      = PyVal.str "0" := by
  have hall : ∀ n, revAttempt (text.data.drop n) = Option.none := by
    intro n
    by_cases hn : n ≤ text.data.length
    · exact h n hn
    · have hlen : text.data.length ≤ n := Nat.le_of_lt (Nat.lt_of_not_le hn)
      rw [List.drop_eq_nil_of_le hlen]
      have h0 := h text.data.length (Nat.le_refl _)
      rwa [List.drop_eq_nil_of_le (Nat.le_refl _)] at h0
  have hs : searchAt revAttempt text.data = Option.none := searchAt_none hall
  have hrev : extract_revision_number text = Option.none := by
    unfold extract_revision_number
    rw [hs]
    rfl
  simp [parse_purchase_order_data, safe_extract, liftO, hrev,
    PyVal.isNoneOrEmptyStr]

/-- C7 witness. -/
theorem revision_number_defaults_witness :
    (parse_purchase_order_data "plain text" "a.pdf").order_details.revision_number
      = PyVal.str "0" :=
  revision_number_defaults "plain text" "a.pdf" (by decide)

/-! ### C8: the buyer-contact extractor -/

theorem all_of_take_le_takeWhile {p : Char → Bool} {cs : List Char} {j : Nat}
    (hj : j ≤ (cs.takeWhile p).length) : (cs.take j).all p = true := by
  have hcs : cs.take j = (cs.takeWhile p).take j := by
    conv_lhs => rw [← List.takeWhile_append_dropWhile (p := p) (l := cs)]
    exact List.take_append_of_le_length hj
  rw [hcs, List.all_eq_true]
  intro a ha
  exact List.mem_takeWhile_imp (List.take_subset _ _ ha)

/-- A successful `bcGroup` is a nonempty class-run prefix whose end is
the end of the input or is followed by a newline. -/
theorem bcGroup_some_elim {cs g : List Char} (h : bcGroup cs = Option.some g) :
    ∃ j, 1 ≤ j ∧ j ≤ (cs.takeWhile isBcChar).length ∧ g = cs.take j ∧
      (j = cs.length ∨ (cs.drop j).head? = Option.some '\n') := by
  unfold bcGroup at h
  obtain ⟨j, hj, hf⟩ := descend_some_elim h
  by_cases hj0 : j = 0
  · subst hj0
    exact Option.noConfusion (hf : Option.none = Option.some g)
  · rw [if_neg (by simp [hj0])] at hf
    cases hcond : (j == cs.length || (cs.drop j).head? == Option.some '\n') with
    | false =>
      rw [if_neg (by rw [hcond]; exact Bool.false_ne_true)] at hf
      exact Option.noConfusion hf
    | true =>
      rw [if_pos hcond] at hf
      refine ⟨j, Nat.one_le_iff_ne_zero.mpr hj0, hj, (Option.some.inj hf).symm, ?_⟩
      simp only [Bool.or_eq_true, beq_iff_eq] at hcond
      exact hcond

theorem takeWhile_length_le (p : Char → Bool) (cs : List Char) :
    (cs.takeWhile p).length ≤ cs.length := by
  induction cs with
  | nil => exact Nat.le_refl 0
  | cons c cs ih =>
    cases hp : p c with
    | true =>
      rw [List.takeWhile_cons_of_pos hp, List.length_cons, List.length_cons]
      exact Nat.succ_le_succ ih
    | false =>
      rw [List.takeWhile_cons_of_neg (by simp [hp])]
      exact Nat.zero_le _

/-- A successful `bcAttempt` decomposes its input into a
case-insensitive copy of the `Buyer Contact` label, a separator run, the
nonempty class-run capture, and a rest beginning with a newline (or
nothing): the capture sits immediately after the label and its
separators. -/
theorem bcAttempt_decomp {cs g : List Char} (h : bcAttempt cs = Option.some g) :
    ∃ lab seps rest, cs = lab ++ seps ++ g ++ rest ∧
      lab.map lowerC = "Buyer Contact".data.map lowerC ∧
      seps.all isSepChar = true ∧
      g ≠ [] ∧ g.all isBcChar = true ∧
      (rest = [] ∨ rest.head? = Option.some '\n') := by
  unfold bcAttempt at h
  cases hcm : ciMatch "Buyer Contact".data cs with
  | none =>
    rw [hcm] at h
    exact Option.noConfusion (h : Option.none = Option.some g)
  | some r =>
    rw [hcm] at h
    have h2 : backSeps isSepChar bcGroup r = Option.some g := h
    unfold backSeps at h2
    obtain ⟨s, hs, hfs⟩ := descend_some_elim h2
    obtain ⟨j, hj1, hjle, hgeq, hlook⟩ := bcGroup_some_elim hfs
    obtain ⟨m, hcs_eq, hmap⟩ := ciMatch_decomp_fold hcm
    have hgr : g ++ (r.drop s).drop j = r.drop s := by
      rw [hgeq]
      exact List.take_append_drop j (r.drop s)
    have hrdec : r = r.take s ++ (g ++ (r.drop s).drop j) := by
      rw [hgr]
      exact (List.take_append_drop s r).symm
    refine ⟨m, r.take s, (r.drop s).drop j, ?_, hmap, ?_, ?_, ?_, ?_⟩
    · rw [hcs_eq]
      conv_lhs => rw [hrdec]
      simp [List.append_assoc]
    · exact all_of_take_le_takeWhile hs
    · have hjlen : j ≤ (r.drop s).length :=
        Nat.le_trans hjle (takeWhile_length_le _ _)
      have hglen : g.length = j := by
        rw [hgeq, List.length_take]
        exact Nat.min_eq_left hjlen
      intro hgnil
      rw [hgnil] at hglen
      simp only [List.length_nil] at hglen
      omega
    · rw [hgeq]
      exact all_of_take_le_takeWhile hjle
    · rcases hlook with hl | hl
      · left
        rw [hl]
        exact List.drop_length _
      · right
        exact hl

/-- C8 counterexample: on
`"Buyer Contact: John Smith\nJane Doe"` the capture extends past the
first newline after the label (the class `[A-Za-z\s.]` contains `\s`,
hence newlines, and the lookahead is satisfied at the end of the text). -/
theorem extract_buyer_contact_counterexample :
    extract_buyer_contact "Buyer Contact: John Smith\nJane Doe"
      = Option.some "John Smith\nJane Doe"
    ∧ '\n' ∈ "John Smith\nJane Doe".data :=
  ⟨by decide, by decide⟩

/-- C8 (amended): `extract_buyer_contact` returns the trimmed capture of
a run of letters/whitespace/periods sitting immediately after a
case-insensitive copy of the `Buyer Contact` label and its optional
separators, at the leftmost position where the pattern matches, and the
capture ends at a position followed by a newline or at the end of the
text; since the class includes all whitespace the capture may span
newlines rather than stopping at the end of the label's line; the result
is absent when no position matches. -/
theorem extract_buyer_contact_spec (t : String) :
    ((∀ n, n ≤ t.data.length → bcAttempt (t.data.drop n) = Option.none) →
      extract_buyer_contact t = Option.none)
    ∧ (∀ s, extract_buyer_contact t = Option.some s →
      ∃ n g lab seps rest,
        (∀ m, m < n → bcAttempt (t.data.drop m) = Option.none) ∧
        bcAttempt (t.data.drop n) = Option.some g ∧
        t.data = t.data.take n ++ lab ++ seps ++ g ++ rest ∧
        lab.map lowerC = "Buyer Contact".data.map lowerC ∧
        seps.all isSepChar = true ∧
        s = String.mk (pyStrip g) ∧ g ≠ [] ∧ g.all isBcChar = true ∧
        (rest = [] ∨ rest.head? = Option.some '\n')) := by
  constructor
  · intro h
    have hall : ∀ n, bcAttempt (t.data.drop n) = Option.none := by
      intro n
      by_cases hn : n ≤ t.data.length
      · exact h n hn
      · have hlen : t.data.length ≤ n := Nat.le_of_lt (Nat.lt_of_not_le hn)
        rw [List.drop_eq_nil_of_le hlen]
        have h0 := h t.data.length (Nat.le_refl _)
        rwa [List.drop_eq_nil_of_le (Nat.le_refl _)] at h0
    unfold extract_buyer_contact
    rw [searchAt_none hall]
    rfl
  · intro s hs
    unfold extract_buyer_contact at hs
    cases hsea : searchAt bcAttempt t.data with
    | none =>
      rw [hsea] at hs
      exact Option.noConfusion (hs : Option.none = Option.some s)
    | some g =>
      rw [hsea] at hs
      have hsg : Option.some (String.mk (pyStrip g)) = Option.some s := hs
      obtain ⟨n, hn, hleft⟩ := searchAt_some_leftmost hsea
      obtain ⟨lab, seps, rest, hdec, hlab, hseps, hne, hall2, hlook⟩ :=
        bcAttempt_decomp hn
      refine ⟨n, g, lab, seps, rest, hleft, hn, ?_, hlab, hseps,
        (Option.some.inj hsg).symm, hne, hall2, hlook⟩
      calc t.data = t.data.take n ++ t.data.drop n :=
            (List.take_append_drop n t.data).symm
        _ = t.data.take n ++ (lab ++ seps ++ g ++ rest) := by rw [hdec]
        _ = t.data.take n ++ lab ++ seps ++ g ++ rest := by
            simp [List.append_assoc]

/-- C8 witness: the no-match conjunct at a concrete text, and the
label-anchored decomposition conjunct at a text with a one-line
capture. -/
theorem extract_buyer_contact_spec_witness :
    extract_buyer_contact "short" = Option.none
    ∧ ∃ n g lab seps rest,
        (∀ m, m < n → bcAttempt ("Buyer Contact: Jane".data.drop m) = Option.none) ∧
        bcAttempt ("Buyer Contact: Jane".data.drop n) = Option.some g ∧
        "Buyer Contact: Jane".data
          = "Buyer Contact: Jane".data.take n ++ lab ++ seps ++ g ++ rest ∧
        lab.map lowerC = "Buyer Contact".data.map lowerC ∧
        seps.all isSepChar = true ∧
        "Jane" = String.mk (pyStrip g) ∧ g ≠ [] ∧ g.all isBcChar = true ∧
        (rest = [] ∨ rest.head? = Option.some '\n') :=
  ⟨(extract_buyer_contact_spec "short").1 (by decide),
   (extract_buyer_contact_spec "Buyer Contact: Jane").2 "Jane" (by decide)⟩

/-! ### The generic extractor (`extract_pdf_data`) and the PO text path -/

/-- Reader-level metadata delivered by the external metadata library
(PyPDF2): title, author, page count. -/
structure PdfMetaIn where
  title : String
  author : String
  total_pages : Nat

/-- One page as delivered by the external text-extraction library
(pdfplumber): `extract_text() or ""`, width, height. -/
structure PageIn where
  text : String
  width : ℚ
  height : ℚ

structure DocMetadata where
  title : String
  author : String
  total_pages : Nat

structure PageData where
  page_number : Nat
  text : String
  width : ℚ
  height : ℚ

structure ExtractedDocument where
  metadata : DocMetadata
  pages : List PageData
  text : String
  total_pages : Nat

/-- The `"\n\n"` separator the extraction loops append after each page. -/
def sepNN : List Char := ['\n', '\n']

/-- `extract_pdf_data` from `src/main.py`, the external libraries
abstracted as inputs.  The loop numbers pages from 1, appends each page's
text plus `"\n\n"` to `full_text`, and the `text` field is
`full_text.strip()`.  The success path is modelled (a library exception
would instead leave partial data plus an `error` string). -/
def extract_pdf_data (meta : PdfMetaIn) (pages : List PageIn) : ExtractedDocument :=
  { metadata :=
      { title := meta.title, author := meta.author, total_pages := meta.total_pages }
    pages := (List.enumFrom 1 pages).map (fun p =>
      { page_number := p.1, text := p.2.text, width := p.2.width, height := p.2.height })
    text := String.mk (pyStrip ((pages.map (fun p => p.text.data ++ sepNN)).flatten))
    total_pages := meta.total_pages }

/-- `extract_text_from_pdf` from `src/main.py` (the PO path), pdfplumber's
per-page texts abstracted as input: each page text plus `"\n\n"`, no
strip. -/
def extract_text_from_pdf (pageTexts : List String) : String :=
  String.mk ((pageTexts.map (fun t => t.data ++ sepNN)).flatten)

/-- Modelled from the spec: "`text` is the newline-joined concatenation
of all page texts". -/
def specNewlineJoined (ts : List String) : String :=
  String.intercalate "\n" ts

/-! ### C9: the text field of the generic extractor -/

/-- Dropping of trailing whitespace, the second half of `str.strip()`. -/
def stripRight (cs : List Char) : List Char :=
  (cs.reverse.dropWhile isPySpace).reverse

theorem pyStrip_eq_stripRight (cs : List Char) :
    pyStrip cs = stripRight (cs.dropWhile isPySpace) := rfl

theorem dropWhile_append_of_ne {p : Char → Bool} {l1 : List Char}
    (l2 : List Char) (h : l1.dropWhile p ≠ []) :
    (l1 ++ l2).dropWhile p = l1.dropWhile p ++ l2 := by
  induction l1 with
  | nil => exact absurd rfl h
  | cons c cs ih =>
    cases hp : p c with
    | true =>
      rw [List.cons_append, List.dropWhile_cons_of_pos hp,
        List.dropWhile_cons_of_pos hp]
      apply ih
      intro hnil
      rw [List.dropWhile_cons_of_pos hp] at h
      exact h hnil
    | false =>
      rw [List.cons_append, List.dropWhile_cons_of_neg (by simp [hp]),
        List.dropWhile_cons_of_neg (by simp [hp]), List.cons_append]

theorem stripRight_append {a b : List Char} (h : stripRight b ≠ []) :
    stripRight (a ++ b) = a ++ stripRight b := by
  have h2 : b.reverse.dropWhile isPySpace ≠ [] := by
    intro hh
    apply h
    unfold stripRight
    rw [hh]
    rfl
  unfold stripRight
  rw [List.reverse_append, dropWhile_append_of_ne _ h2, List.reverse_append,
    List.reverse_reverse]

theorem intercalate_singleton (sep a : List Char) :
    List.intercalate sep [a] = a := by
  simp [List.intercalate, List.intersperse]

theorem intercalate_cons_cons (sep a b : List Char) (l : List (List Char)) :
    List.intercalate sep (a :: b :: l) = a ++ sep ++ List.intercalate sep (b :: l) := by
  simp [List.intercalate, List.intersperse, List.append_assoc]

/-- Right-stripping the loop's `tᵢ ++ "\n\n"` concatenation yields the
`"\n\n"`-intercalation, provided the last page text ends with a
non-whitespace character. -/
theorem stripRight_flatten {ts : List (List Char)} {tl : List Char}
    (hlast : ts.getLast? = Option.some tl)
    (hws : ∃ c cs, tl.reverse = c :: cs ∧ isPySpace c = false) :
    stripRight ((ts.map (· ++ sepNN)).flatten) = List.intercalate sepNN ts
    ∧ stripRight ((ts.map (· ++ sepNN)).flatten) ≠ [] := by
  induction ts with
  | nil => exact Option.noConfusion hlast
  | cons t rest ih =>
    cases rest with
    | nil =>
      have ht : t = tl := Option.some.inj (hlast : Option.some t = Option.some tl)
      subst ht
      obtain ⟨c, cs, hrev, hc⟩ := hws
      have hcore : stripRight (t ++ sepNN) = t := by
        unfold stripRight
        rw [List.reverse_append]
        show (('\n' :: '\n' :: t.reverse).dropWhile isPySpace).reverse = t
        rw [List.dropWhile_cons_of_pos (by decide),
          List.dropWhile_cons_of_pos (by decide), hrev,
          List.dropWhile_cons_of_neg (by simp [hc]), ← hrev,
          List.reverse_reverse]
      constructor
      · show stripRight ((t ++ sepNN) ++ [].flatten) = List.intercalate sepNN [t]
        rw [List.flatten_nil, List.append_nil, hcore, intercalate_singleton]
      · show stripRight ((t ++ sepNN) ++ [].flatten) ≠ []
        rw [List.flatten_nil, List.append_nil, hcore]
        intro hnil
        rw [hnil] at hrev
        exact List.noConfusion hrev
    | cons t2 r2 =>
      have hlast2 : (t2 :: r2).getLast? = Option.some tl := by
        rw [← List.getLast?_cons_cons]
        exact hlast
      obtain ⟨hmain, hne2⟩ := ih hlast2
      have hJ : (((t :: t2 :: r2).map (· ++ sepNN)).flatten)
          = (t ++ sepNN) ++ (((t2 :: r2).map (· ++ sepNN)).flatten) := rfl
      rw [hJ, stripRight_append hne2, hmain]
      constructor
      · rw [intercalate_cons_cons]
      · intro hnil
        have : sepNN = [] ∧ List.intercalate sepNN (t2 :: r2) = [] := by
          have h2 := List.append_eq_nil.mp hnil
          exact ⟨(List.append_eq_nil.mp h2.1).2, h2.2⟩
        exact List.noConfusion this.1

/-- C9 counterexample: for pages with texts `"a"` and `"b"` the `text`
field is `"a\n\nb"` (the loop appends `"\n\n"` after each page and
strips), not the newline-joined `"a\nb"` the claim describes. -/
theorem extract_pdf_data_counterexample :
    (extract_pdf_data ⟨"", "", 2⟩ [⟨"a", 1, 1⟩, ⟨"b", 1, 1⟩]).text = "a\n\nb"
    ∧ specNewlineJoined ["a", "b"] = "a\nb"
    ∧ ("a\n\nb" : String) ≠ "a\nb" :=
  ⟨by decide, by decide, by decide⟩

/-- C9 (amended): the `text` field is the concatenation of each page
text followed by `"\n\n"`, with leading and trailing whitespace
stripped; when the first page text starts and the last page text ends
with a non-whitespace character this equals the page texts joined by the
two-newline separator `"\n\n"` (not by a single newline). -/
theorem extract_pdf_data_text_spec (meta : PdfMetaIn) (pages : List PageIn)
    {h0 tl : List Char}
    (hhead : (pages.map (fun p => p.text.data)).head? = Option.some h0)
    (hlast : (pages.map (fun p => p.text.data)).getLast? = Option.some tl)
    (hh : ∃ c cs, h0 = c :: cs ∧ isPySpace c = false)
    (hl : ∃ c cs, tl.reverse = c :: cs ∧ isPySpace c = false) :
    (extract_pdf_data meta pages).text
      = String.mk (List.intercalate sepNN (pages.map (fun p => p.text.data))) := by
  obtain ⟨c, cs, hc, hcws⟩ := hh
  have htext : (extract_pdf_data meta pages).text
      = String.mk (pyStrip ((pages.map (fun p => p.text.data ++ sepNN)).flatten)) := rfl
  have hmapmap : pages.map (fun p => p.text.data ++ sepNN)
      = (pages.map (fun p => p.text.data)).map (· ++ sepNN) := by
    rw [List.map_map]
    rfl
  rw [htext, hmapmap]
  cases hps : pages.map (fun p => p.text.data) with
  | nil =>
    rw [hps] at hhead
    exact Option.noConfusion hhead
  | cons t ts' =>
    rw [hps] at hhead hlast
    have ht0 : t = h0 := Option.some.inj (hhead : Option.some t = Option.some h0)
    subst ht0
    rw [pyStrip_eq_stripRight]
    have hflat : (((t :: ts').map (· ++ sepNN)).flatten)
        = (t ++ sepNN) ++ ((ts'.map (· ++ sepNN)).flatten) := rfl
    have hdw : ((((t :: ts').map (· ++ sepNN)).flatten)).dropWhile isPySpace
        = (((t :: ts').map (· ++ sepNN)).flatten) := by
      rw [hflat, hc]
      rw [List.cons_append, List.cons_append]
      exact List.dropWhile_cons_of_neg (by simp [hcws])
    rw [hdw]
    exact congrArg String.mk (stripRight_flatten hlast hl).1

/-- C9 witness: two concrete pages. -/
theorem extract_pdf_data_text_spec_witness :
    (extract_pdf_data ⟨"t", "a", 2⟩ [⟨"one", 1, 1⟩, ⟨"two", 1, 1⟩]).text
      = String.mk (List.intercalate sepNN
          ([⟨"one", 1, 1⟩, ⟨"two", (1 : ℚ), (1 : ℚ)⟩].map (fun p : PageIn => p.text.data))) :=
  @extract_pdf_data_text_spec ⟨"t", "a", 2⟩ [⟨"one", 1, 1⟩, ⟨"two", 1, 1⟩]
    "one".data "two".data
    (by decide) (by decide)
    ⟨'o', ['n', 'e'], by decide, by decide⟩
    ⟨'o', ['w', 't'], by decide, by decide⟩

/-! ### C10: the page count of the purchase-order path -/

/-- C10: a text with no form feed yields `metadata.total_pages = 1` in
the assembled record; and since the PO text pipeline joins the page
texts with `"\n\n"` and never inserts a form feed, any PDF whose page
texts contain no form feed reports one page regardless of its actual
page count. -/
theorem po_total_pages_one :
    (∀ text filename : String, ¬('\x0c' ∈ text.data) →
      (parse_purchase_order_data text filename).metadata.total_pages = 1)
    ∧ (∀ (pageTexts : List String) (filename : String),
        (∀ t ∈ pageTexts, ¬('\x0c' ∈ t.data)) →
        (parse_purchase_order_data (extract_text_from_pdf pageTexts)
          filename).metadata.total_pages = 1) := by
  have hcore : ∀ text filename : String, ¬('\x0c' ∈ text.data) →
      (parse_purchase_order_data text filename).metadata.total_pages = 1 := by
    intro text fn h
    have hc : text.data.contains '\x0c' = false := by
      apply Bool.eq_false_iff.mpr
      intro htrue
      exact h (List.elem_iff.mp htrue)
    have hval : (parse_purchase_order_data text fn).metadata.total_pages
        = if text.data.contains '\x0c' then text.data.count '\x0c' + 1 else 1 := rfl
    rw [hval, hc]
    simp
  refine ⟨hcore, ?_⟩
  intro ts fn h
  apply hcore
  intro hmem
  have hmem2 : '\x0c' ∈ (ts.map (fun t => t.data ++ sepNN)).flatten := hmem
  rw [List.mem_flatten] at hmem2
  obtain ⟨s, hsl, has⟩ := hmem2
  rw [List.mem_map] at hsl
  obtain ⟨t, ht, hts⟩ := hsl
  rw [← hts, List.mem_append] at has
  rcases has with ha | ha
  · exact h t ht ha
  · exact (by decide : ¬('\x0c' ∈ sepNN)) ha

/-- C10 witness: three pages, one reported page. -/
theorem po_total_pages_one_witness :
    (parse_purchase_order_data
      (extract_text_from_pdf ["page one", "page two", "page three"])
      "f.pdf").metadata.total_pages = 1 :=
  po_total_pages_one.2 ["page one", "page two", "page three"] "f.pdf" (by decide)

/-! ### The structured-entity extractor (`src/advanced_converter.py`)

`extract_structured_data` runs `re.findall` with four fixed patterns
(case-insensitively) and deduplicates each match list through a Python
set.  The patterns are embedded as sequences of items over a small
backtracking engine whose candidate lists enumerate the engine's states
in Python's backtracking priority order (greedy quantifiers longest
first, optional groups present before absent). -/

/-- One pattern item: a counted character class `C{lo,hi}` (`hi = none`
is unbounded), a word boundary `\b`, an optional three-item group
`(?:abc)?` (the phone prefix), or the URL-body repetition
`(?:[-\w.]|%[0-9a-fA-F]{2})+` (its two alternatives start with disjoint
characters, so each repetition step is deterministic and only the number
of steps backtracks). -/
inductive RE where
  | cls (p : Char → Bool) (lo : Nat) (hi : Option Nat)
  | wb
  | grpOpt3 (a b c : RE)
  | pcts

/-- Candidate states after a greedy counted class, longest first.  A
state is the remaining input plus the previous character (for `\b`). -/
def clsCands (p : Char → Bool) (lo : Nat) (hi : Option Nat)
    (st : List Char × Option Char) : List (List Char × Option Char) :=
  let run := (st.1.takeWhile p).length
  let mx := match hi with
    | Option.some h => min h run
    | Option.none => run
  if mx < lo then []
  else (List.range (mx + 1 - lo)).map (fun k =>
    let n := mx - k
    (st.1.drop n, if n == 0 then st.2 else st.1[n-1]?))

def isWordOpt : Option Char → Bool
  | Option.some c => isWordChar c
  | Option.none => false

/-- Python `\b`: the word-ness of the characters on the two sides of the
position differs (edges count as non-word). -/
def wordBoundary (st : List Char × Option Char) : Bool :=
  isWordOpt st.2 != isWordOpt st.1.head?

/-- The first URL-body alternative `[-\w.]`. -/
def isUrlBodyChar (c : Char) : Bool := c == '-' || isWordChar c || c == '.'

def isHexChar (c : Char) : Bool :=
  isAsciiDigit c || ('a' ≤ c && c ≤ 'f') || ('A' ≤ c && c ≤ 'F')

/-- One step of `(?:[-\w.]|%[0-9a-fA-F]{2})`: the alternatives start with
disjoint characters (`%` is not in `[-\w.]`), so at most one applies. -/
def pctUnit (cs : List Char) : Option Nat :=
  match cs with
  | [] => Option.none
  | c :: rest =>
    if isUrlBodyChar c then Option.some 1
    else if c == '%' then
      match rest with
      | h1 :: h2 :: _ =>
        if isHexChar h1 && isHexChar h2 then Option.some 3 else Option.none
      | _ => Option.none
    else Option.none

/-- Cumulative lengths of the maximal unit decomposition (each unit
consumes at least one character, so the input length is enough fuel). -/
def pctCutsF : Nat → List Char → List Nat
  | 0, _ => []
  | fuel + 1, cs =>
    match pctUnit cs with
    | Option.some n => n :: (pctCutsF fuel (cs.drop n)).map (· + n)
    | Option.none => []

def pctCuts (cs : List Char) : List Nat := pctCutsF cs.length cs

/-- Candidate states after one item, in backtracking priority order. -/
def cands : RE → (List Char × Option Char) → List (List Char × Option Char)
  | .cls p lo hi, st => clsCands p lo hi st
  | .wb, st => if wordBoundary st then [st] else []
  | .grpOpt3 a b c, st =>
    ((cands a st).flatMap (fun s1 => (cands b s1).flatMap (fun s2 => cands c s2))) ++ [st]
  | .pcts, st =>
    (pctCuts st.1).reverse.map (fun n => (st.1.drop n, st.1[n-1]?))

/-- Candidate states after a sequence of items, in priority order. -/
def candsSeq : List RE → (List Char × Option Char) → List (List Char × Option Char)
  | [], st => [st]
  | r :: rs, st => (cands r st).flatMap (candsSeq rs)

/-- Length of the match of the pattern at this position (the first
candidate in priority order), or `none`. -/
def matchAt (rs : List RE) (prev : Option Char) (cs : List Char) : Option Nat :=
  (candsSeq rs (cs, prev)).head?.map (fun st => cs.length - st.1.length)

/-- `re.findall`: leftmost non-overlapping matches, resuming after each
match (all four patterns match at least one character; a zero-length
match cannot occur and is guarded off). -/
def findallF (rs : List RE) : Nat → Option Char → List Char → List (List Char)
  | 0, _, _ => []
  | fuel + 1, prev, cs =>
    match matchAt rs prev cs with
    | Option.some n =>
      if n == 0 then []
      else (cs.take n) :: findallF rs fuel cs[n-1]? (cs.drop n)
    | Option.none =>
      match cs with
      | [] => []
      | c :: rest => findallF rs fuel (Option.some c) rest

def pyFindall (rs : List RE) (s : String) : List String :=
  (findallF rs (s.data.length + 1) Option.none s.data).map String.mk

/-- `[A-Za-z0-9._%+-]` of the email pattern. -/
def isEmailLocalChar (c : Char) : Bool :=
  isAsciiAlnum c || c == '.' || c == '_' || c == '%' || c == '+' || c == '-'

/-- `[A-Za-z0-9.-]` of the email pattern. -/
def isEmailDomainChar (c : Char) : Bool := isAsciiAlnum c || c == '.' || c == '-'

/-- `[A-Z|a-z]` of the email pattern: letters and a literal `|`. -/
def isTldChar (c : Char) : Bool := isAsciiAlpha c || c == '|'

/-- `\b[A-Za-z0-9._%+-]+@[A-Za-z0-9.-]+\.[A-Z|a-z]{2,}\b`. -/
def emailRE : List RE :=
  [.wb, .cls isEmailLocalChar 1 Option.none, .cls (· == '@') 1 (Option.some 1),
   .cls isEmailDomainChar 1 Option.none, .cls (· == '.') 1 (Option.some 1),
   .cls isTldChar 2 Option.none, .wb]

/-- `[-.\s]` of the phone pattern. -/
def isPhoneSep (c : Char) : Bool := c == '-' || c == '.' || isPySpace c

/-- `\b(?:\+?\d{1,3}[-.\s]?)?\(?\d{3}\)?[-.\s]?\d{3}[-.\s]?\d{4}\b`. -/
def phoneRE : List RE :=
  [.wb,
   .grpOpt3 (.cls (· == '+') 0 (Option.some 1))
     (.cls isAsciiDigit 1 (Option.some 3))
     (.cls isPhoneSep 0 (Option.some 1)),
   .cls (· == '(') 0 (Option.some 1),
   .cls isAsciiDigit 3 (Option.some 3),
   .cls (· == ')') 0 (Option.some 1),
   .cls isPhoneSep 0 (Option.some 1),
   .cls isAsciiDigit 3 (Option.some 3),
   .cls isPhoneSep 0 (Option.some 1),
   .cls isAsciiDigit 4 (Option.some 4),
   .wb]

/-- `[/\w\.-]` of the URL pattern (the trailing `-` is literal). -/
def isUrlTailChar (c : Char) : Bool :=
  c == '/' || isWordChar c || c == '.' || c == '-'

/-- `[/\w\.-=&]` of the URL pattern: here `\.-=` is a character *range*
from `.` (0x2e) to `=` (0x3d), covering `./0-9:;<=`. -/
def isUrlQueryChar (c : Char) : Bool :=
  c == '/' || isWordChar c || ('.' ≤ c && c ≤ '=') || c == '&'

/-- `https?://(?:[-\w.]|(?:%[\da-fA-F]{2}))+[/\w\.-]*\??[/\w\.-=&]*`
(case-insensitive, hence the folded letters). -/
def urlRE : List RE :=
  [.cls (fun c => lowerC c == 'h') 1 (Option.some 1),
   .cls (fun c => lowerC c == 't') 1 (Option.some 1),
   .cls (fun c => lowerC c == 't') 1 (Option.some 1),
   .cls (fun c => lowerC c == 'p') 1 (Option.some 1),
   .cls (fun c => lowerC c == 's') 0 (Option.some 1),
   .cls (· == ':') 1 (Option.some 1),
   .cls (· == '/') 1 (Option.some 1),
   .cls (· == '/') 1 (Option.some 1),
   .pcts,
   .cls isUrlTailChar 0 Option.none,
   .cls (· == '?') 0 (Option.some 1),
   .cls isUrlQueryChar 0 Option.none]

/-- The date separator class of the date pattern: a slash or hyphen. -/
def isDateSep (c : Char) : Bool := c == '/' || c == '-'

/-- `\b \d{1,2} sep \d{1,2} sep \d{2,4} \b (sep the slash-or-hyphen class)`. -/
def dateTokenRE : List RE :=
  [.wb, .cls isAsciiDigit 1 (Option.some 2), .cls isDateSep 1 (Option.some 1),
   .cls isAsciiDigit 1 (Option.some 2), .cls isDateSep 1 (Option.some 1),
   .cls isAsciiDigit 2 (Option.some 4), .wb]

structure StructuredEntities where
  emails : List String
  phone_numbers : List String
  urls : List String
  dates : List String

/-- `AdvancedPDFConverter.extract_structured_data`: run each pattern over
the text and deduplicate via `list(set(matches))`.  The Python set
discards order (the spec guarantees none), modelled by `List.dedup`. -/
def extract_structured_data (text : String) : StructuredEntities :=
  { emails := (pyFindall emailRE text).dedup
    phone_numbers := (pyFindall phoneRE text).dedup
    urls := (pyFindall urlRE text).dedup
    dates := (pyFindall dateTokenRE text).dedup }

/-! ### C3: deduplication and empty categories -/

/-- C3: for every text, each of the four categories of the
structured-entity extractor contains no duplicate values, and a category
with zero pattern matches is the empty collection (the field is always
present; the extractor is a total function). -/
theorem extract_structured_data_spec (text : String) :
    ((extract_structured_data text).emails.Nodup
      ∧ (extract_structured_data text).phone_numbers.Nodup
      ∧ (extract_structured_data text).urls.Nodup
      ∧ (extract_structured_data text).dates.Nodup)
    ∧ (pyFindall emailRE text = [] → (extract_structured_data text).emails = [])
    ∧ (pyFindall phoneRE text = [] →
        (extract_structured_data text).phone_numbers = [])
    ∧ (pyFindall urlRE text = [] → (extract_structured_data text).urls = [])
    ∧ (pyFindall dateTokenRE text = [] →
        (extract_structured_data text).dates = []) := by
  refine ⟨⟨List.nodup_dedup _, List.nodup_dedup _, List.nodup_dedup _,
    List.nodup_dedup _⟩, ?_, ?_, ?_, ?_⟩ <;>
  · intro h
    simp [extract_structured_data, h]

/-- C3 witness: a text with zero matches in every category. -/
theorem extract_structured_data_spec_witness :
    (extract_structured_data "plain words only").emails = []
    ∧ (extract_structured_data "plain words only").phone_numbers = []
    ∧ (extract_structured_data "plain words only").urls = []
    ∧ (extract_structured_data "plain words only").dates = [] :=
  ⟨(extract_structured_data_spec "plain words only").2.1 (by decide),
   (extract_structured_data_spec "plain words only").2.2.1 (by decide),
   (extract_structured_data_spec "plain words only").2.2.2.1 (by decide),
   (extract_structured_data_spec "plain words only").2.2.2.2 (by decide)⟩
